import Mathlib

/-!
Shallow embedding of the core of `CleanEmonBackend` (files
`src/CleanEmonBackend/API/API.py` and `src/CleanEmonBackend/API/service.py`)
together with proofs of the specified properties.

Modelling conventions:
* Python values that may appear in sensor records and metadata mappings are
  modelled by the inductive `PyVal` (`None`, numbers, strings, booleans).
  Python floats are modelled by `ℚ` (the arithmetic used by the code is
  subtraction and division only).
* A Python `dict` is modelled as an association list; Python dicts preserve
  insertion order, and so does the list.
* Dates: the code converts `YYYY-MM-DD` strings to `datetime` objects with
  `strptime` and back with `strftime`, and steps them with
  `timedelta(days=1)`.  This round trip is a bijection between parseable date
  strings and calendar days, so a date is modelled as its day ordinal `ℕ`
  and `timedelta(days=1)` as `+ 1`.
* External collaborators (the document store) are modelled as an explicit
  `Env` record of functions passed to the operations; Python exceptions are
  modelled by an `Option` result (`none` = the call raises).
* `get_data` mutates its caller-supplied `sensors` list in place
  (`sensors.append("timestamp")`); the embedding makes the mutation explicit
  by returning the post-call list alongside the result.
-/

/-- A Python scalar value as stored in sensor records and metadata mappings:
`None`, a float/int, a string, or a boolean. -/
inductive PyVal where
  | null : PyVal
  | num : ℚ → PyVal
  | str : String → PyVal
  | bool : Bool → PyVal
deriving DecidableEq, Repr

/-- One sensor record: a Python dict from sensor name to value, in insertion
order (`record.items()` iterates in this order). -/
abbrev SensorRecord := List (String × PyVal)

/-- `EnergyData(date, data)` from `CleanEmonCore.models`: a date paired with
the ordered list of sensor records.  The date is `Optional[str]` in the
source, hence `Option ℕ` under the day-ordinal date model. -/
structure EnergyData where
  date : Option ℕ
  energy_data : List SensorRecord
deriving DecidableEq, Repr

/-- The external document store, as used by `API.py`: `fetch_data` takes the
date, the db scope and the `down_sampling` flag and yields the day's records
(the `.energy_data` field of the fetched `EnergyData`); `get_last_value`
takes the db scope.  Both live in `lib/DBConnector`. -/
structure Env where
  fetch_data : Option ℕ → Option String → Bool → List SensorRecord
  get_last_value : Option String → EnergyData

/-- `get_data` from `API.py`.  Mirrors the source line by line:
early return on `keep_last_only`; fetch; if `sensors` is truthy (a non-empty
list), append `"timestamp"` to it when missing and keep only the keys that
are in the list; the trailing `if keep_last_only: data = data[-1:]` is kept
even though it is unreachable.  The second component of the result is the
caller's `sensors` list after the call (the in-place mutation made
explicit). -/
def get_data (env : Env) (date : Option ℕ) (sensors : Option (List String))
    (db : Option String) (keep_last_only : Bool) (down_sampling : Bool) :
    EnergyData × Option (List String) :=
  if keep_last_only then (env.get_last_value db, sensors)
  else
    let raw_data := env.fetch_data date db down_sampling
    let st : List SensorRecord × Option (List String) :=
      match sensors with
      | some l =>
        if !l.isEmpty then
          let l2 := if l.contains "timestamp" then l else l ++ ["timestamp"]
          (raw_data.map (fun record => record.filter (fun kv => l2.contains kv.1)), some l2)
        else (raw_data, sensors)
      | none => (raw_data, sensors)
    let data := if keep_last_only then st.1.drop (st.1.length - 1) else st.1
    (⟨date, data⟩, st.2)

/-- The caller's `sensors` list after one `get_data` call on the
non-`keep_last_only` path: `"timestamp"` is appended in place exactly when
the list is truthy (non-`None`, non-empty) and does not already contain
`"timestamp"`. -/
def sensors_after (sensors : Option (List String)) : Option (List String) :=
  match sensors with
  | some l =>
    if !l.isEmpty then some (if l.contains "timestamp" then l else l ++ ["timestamp"])
    else some l
  | none => none

/-- The range-data schema built by `get_range_data`:
`{"from_date": ..., "to_date": ..., "range_data": [...]}`. -/
structure RangeResult where
  from_date : ℕ
  to_date : ℕ
  range_data : List EnergyData
deriving DecidableEq, Repr

/-- The `while now <= to_dt` loop of `get_range_data`: one `get_data` call
per day, appending each `EnergyDay` in order and stepping `now` by one day.
The same `sensors` list object is passed to every iteration, so the state of
the list is threaded through the loop. -/
def range_loop (env : Env) (db : Option String) (down_sampling : Bool) :
    ℕ → ℕ → Option (List String) → List EnergyData × Option (List String)
  | now, toD, sensors =>
    if h : now ≤ toD then
      let r := get_data env (some now) sensors db false down_sampling
      let rest := range_loop env db down_sampling (now + 1) toD r.2
      (r.1 :: rest.1, rest.2)
    else ([], sensors)
termination_by now toD _ => toD + 1 - now
decreasing_by simp_wf; omega

/-- `get_range_data` from `API.py`: builds the schema and runs the per-day
loop.  The function performs no range check: when `to_date < from_date` the
loop body never executes.  The second component is the caller's `sensors`
list after the call. -/
def get_range_data (env : Env) (from_date to_date : ℕ)
    (sensors : Option (List String)) (db : Option String)
    (down_sampling : Bool) : RangeResult × Option (List String) :=
  let r := range_loop env db down_sampling from_date to_date sensors
  (⟨from_date, to_date, r.1⟩, r.2)

/-- A valid power reading: numeric, not `None`/missing/non-numeric. -/
def isValidReading : PyVal → Bool
  | .num _ => true
  | _ => false

/-- The numeric content of a reading, when valid. -/
def readingNum : PyVal → Option ℚ
  | .num q => some q
  | _ => none

/-- Scan from the start of the day for the first valid reading. -/
def firstValid : List PyVal → Option ℚ
  | [] => none
  | v :: rest =>
    match readingNum v with
    | some q => some q
    | none => firstValid rest

/-- Scan from the end of the day for the last valid reading. -/
def lastValid (l : List PyVal) : Option ℚ :=
  firstValid l.reverse

/-- A daily consumption value: a number in kWh or the "unavailable"
sentinel. -/
inductive ConsumptionValue where
  | value : ℚ → ConsumptionValue
  | unavailable : ConsumptionValue
deriving DecidableEq, Repr

/-- Modelled from the spec: the daily-consumption estimator implemented by
`get_view_daily_consumption` (in `lib/DBConnector`, which is not part of the
two source files; `API.py`'s `get_date_consumption` only delegates to it).
Per the spec, consumption is `last_valid_value − first_valid_value`, where
"first valid" scans from the start of the day past null/missing/non-numeric
readings and "last valid" scans from the end; if no valid reading exists the
result is the "unavailable" sentinel and no exception is raised (the
function is total). -/
def estimate (readings : List PyVal) : ConsumptionValue :=
  match firstValid readings, lastValid readings with
  | some a, some b => .value (b - a)
  | _, _ => .unavailable

/-- A metadata mapping: a Python dict from field name to value. -/
abbrev Meta := List (String × PyVal)

/-- Python `field in meta` / `meta[field]` on the metadata dict. -/
def metaLookup (meta : Meta) (field : String) : Option PyVal :=
  (meta.find? (fun kv => kv.1 == field)).map (·.2)

/-- Result of `get_meta`: either a dict (the whole mapping, or the explicit
empty `{}` result) or a single stored value. -/
inductive MetaResult where
  | dict : Meta → MetaResult
  | val : PyVal → MetaResult
deriving DecidableEq, Repr

/-- `get_meta` from `API.py`, with the store's `adapter.fetch_meta` result
passed in as `meta`.  `if not field:` is Python truthiness: both `None` and
the empty string take the "return the entire mapping" branch.  A present
field returns its stored value; an absent one returns the empty dict
`{}`. -/
def get_meta (field : Option String) (meta : Meta) : MetaResult :=
  match field with
  | none => .dict meta
  | some s =>
    if s == "" then .dict meta
    else
      match metaLookup meta s with
      | some v => .val v
      | none => .dict []

/-- `has_meta` from `API.py`: fetches the whole mapping
(`get_meta(db=db)`), returns `False` when the field key is missing, else
compares the stored value against the literal string `"null"` (Python `!=`
between a non-string value and `"null"` is always `True`). -/
def has_meta (field : String) (meta : Meta) : Bool :=
  match metaLookup meta field with
  | none => false
  | some v => !(v == PyVal.str "null")

/-- Interpret a list of decimal digit characters as a natural number. -/
def natOfDigits (cs : List Char) : ℕ :=
  cs.foldl (fun n c => 10 * n + (c.toNat - 48)) 0

/-- Python `float(s)` on a string, simplified to sign + decimal literal
(optional `+`/`-`, digits with at most one `.`, at least one digit; no
exponent/`inf`/`nan`/whitespace forms).  `none` models `float` raising
`ValueError`. -/
def pyFloatOfString (s : String) : Option ℚ :=
  let cs := s.toList
  let signAndRest : Bool × List Char :=
    match cs with
    | '-' :: t => (true, t)
    | '+' :: t => (false, t)
    | t => (false, t)
  let neg := signAndRest.1
  let rest := signAndRest.2
  let intPart := rest.takeWhile Char.isDigit
  let afterInt := rest.dropWhile Char.isDigit
  let mag : Option ℚ :=
    match afterInt with
    | [] => if intPart.isEmpty then none else some (natOfDigits intPart)
    | '.' :: fracPart =>
      if fracPart.all Char.isDigit && (!intPart.isEmpty || !fracPart.isEmpty) then
        some ((natOfDigits intPart : ℚ) + (natOfDigits fracPart : ℚ) / 10 ^ fracPart.length)
      else none
    | _ => none
  mag.map (fun q => if neg then -q else q)

/-- Python `float(value)` on a stored metadata value: numbers pass through,
booleans become `1`/`0`, strings are parsed, `None` raises (`none`). -/
def pyFloat : PyVal → Option ℚ
  | .num q => some q
  | .bool b => some (if b then 1 else 0)
  | .str s => pyFloatOfString s
  | .null => none

/-- Python `float(...)` applied to a `get_meta` result: a dict argument
raises `TypeError` (`none`). -/
def pyFloatResult : MetaResult → Option ℚ
  | .dict _ => none
  | .val v => pyFloat v

/-- `get_mean_consumption` from `API.py`, with the fetched daily consumption
and the store's metadata mapping passed in.  `none` models an uncaught
exception from `float(...)`.  The source: if `has_meta` holds, convert the
stored `"Household m2"` value with `float` and, when the result is truthy
(non-zero), return `consumption / size`; in every other non-raising case
return `-1`. -/
def get_mean_consumption (consumption : ℚ) (meta : Meta) : Option ℚ :=
  if has_meta "Household m2" meta then
    match pyFloatResult (get_meta (some "Household m2") meta) with
    | none => none
    | some size => if size ≠ 0 then some (consumption / size) else some (-1)
  else some (-1)

/-! ## Concrete store environments used by witnesses -/

/-- A small concrete store: every day has two records and the last value is
a fixed single-record day. -/
def env0 : Env where
  fetch_data := fun _ _ _ =>
    [[("timestamp", PyVal.str "00:00"), ("power", PyVal.num 10)],
     [("timestamp", PyVal.str "01:00"), ("power", PyVal.num 25),
      ("voltage", PyVal.num 230)]]
  get_last_value := fun _ =>
    ⟨some 42, [[("timestamp", PyVal.str "23:59"), ("power", PyVal.num 7)]]⟩

/-! ## Theorems -/

/-- C5: `has_meta` returns `false` exactly when the field key is missing
from the mapping or the key maps to the literal string `"null"`; for any
other present value (including falsy ones such as `0` or `False`) it
returns `true`. -/
theorem has_meta_false_iff (field : String) (meta : Meta) :
    has_meta field meta = false ↔
      metaLookup meta field = none ∨
        metaLookup meta field = some (PyVal.str "null") := by
  unfold has_meta
  cases h : metaLookup meta field with
  | none => simp
  | some v => simp [beq_iff_eq]

/-- C7: with an unspecified (`None`) or empty `sensors` list, `get_data`
performs no filtering: the returned `EnergyData` carries the fetched records
unchanged (same order, same content), and the caller's list is not
mutated. -/
theorem get_data_empty_sensors_identity (env : Env) (date : Option ℕ)
    (db : Option String) (ds : Bool) :
    (get_data env date none db false ds).1 = ⟨date, env.fetch_data date db ds⟩ ∧
    (get_data env date (some []) db false ds).1 = ⟨date, env.fetch_data date db ds⟩ ∧
    (get_data env date none db false ds).2 = none ∧
    (get_data env date (some []) db false ds).2 = some [] := by
  refine ⟨?_, ?_, ?_, ?_⟩ <;> simp [get_data]

/-- C9: with `keep_last_only` set, `get_data` returns exactly
`get_last_value(db)`: the result does not depend on `date`, `sensors` or
`down_sampling` (two such runs differing only in those arguments agree),
nor on the store's per-day fetch function, the caller's `sensors` list is
not touched, and the trailing `data[-1:]` truncation is never reached. -/
theorem get_data_keep_last_only_spec (env env' : Env) (d d' : Option ℕ)
    (s s' : Option (List String)) (db : Option String) (ds ds' : Bool) :
    (get_data env d s db true ds).1 = env.get_last_value db ∧
    (get_data env d s db true ds).2 = s ∧
    (get_data env d s db true ds).1 = (get_data env d' s' db true ds').1 ∧
    (env.get_last_value = env'.get_last_value →
      (get_data env d s db true ds).1 = (get_data env' d' s' db true ds').1) := by
  refine ⟨rfl, rfl, rfl, fun h => ?_⟩
  simp [get_data, h]

/-- Witness for C9 at a concrete input: the result is the store's last
value. -/
theorem get_data_keep_last_only_witness :
    (get_data env0 (some 1) (some ["power"]) none true false).1 =
      env0.get_last_value none :=
  (get_data_keep_last_only_spec env0 env0 (some 1) (some 2) (some ["power"])
    none none false true).1

/-- C8 counterexample: the empty string is a field name, and with
`meta = {"": False}` the key `""` exists, yet `get_meta("")` returns the
entire mapping rather than the stored value: Python's `if not field:`
treats the empty string like the no-field case. -/
theorem get_meta_empty_field_counterexample :
    metaLookup [("", PyVal.bool false)] "" = some (PyVal.bool false) ∧
    get_meta (some "") [("", PyVal.bool false)] ≠
      MetaResult.val (PyVal.bool false) ∧
    get_meta (some "") [("", PyVal.bool false)] =
      MetaResult.dict [("", PyVal.bool false)] := by
  refine ⟨rfl, by decide, rfl⟩

/-- C8 (amended): `get_meta` with no field name returns the entire mapping;
with a NON-EMPTY field name it returns the stored value whenever the key
exists (even a falsy value) and otherwise the explicit empty result `{}`
rather than an error; the empty-string field name is treated like the
no-field case and also returns the entire mapping. -/
theorem get_meta_spec (meta : Meta) :
    get_meta none meta = .dict meta ∧
    (∀ s v, s ≠ "" → metaLookup meta s = some v →
      get_meta (some s) meta = .val v) ∧
    (∀ s, s ≠ "" → metaLookup meta s = none →
      get_meta (some s) meta = .dict []) ∧
    get_meta (some "") meta = .dict meta := by
  refine ⟨rfl, ?_, ?_, by simp [get_meta]⟩
  · intro s v hs hv
    simp [get_meta, beq_eq_false_iff_ne.mpr hs, hv]
  · intro s hs hv
    simp [get_meta, beq_eq_false_iff_ne.mpr hs, hv]

/-- Witness for C8 at a concrete input: a present key with a falsy stored
value is returned as that value. -/
theorem get_meta_spec_witness :
    get_meta (some "Household m2") [("Household m2", PyVal.bool false)] =
      .val (PyVal.bool false) :=
  (get_meta_spec [("Household m2", PyVal.bool false)]).2.1
    "Household m2" (PyVal.bool false) (by decide) rfl

/-- C4: `get_mean_consumption` returns exactly `-1` when `"Household m2"`
is absent, or stored as the sentinel string `"null"`, or converts to the
float `0`; when the stored value converts to a non-zero float `sz` it
returns `consumption / sz`.  The division is guarded by the zero case, so
no divide-by-zero fault is possible. -/
theorem get_mean_consumption_spec (consumption : ℚ) (meta : Meta) :
    (metaLookup meta "Household m2" = none →
      get_mean_consumption consumption meta = some (-1)) ∧
    (metaLookup meta "Household m2" = some (PyVal.str "null") →
      get_mean_consumption consumption meta = some (-1)) ∧
    (∀ v, metaLookup meta "Household m2" = some v → pyFloat v = some 0 →
      get_mean_consumption consumption meta = some (-1)) ∧
    (∀ v sz, metaLookup meta "Household m2" = some v → pyFloat v = some sz →
      sz ≠ 0 →
      get_mean_consumption consumption meta = some (consumption / sz)) := by
  refine ⟨fun h => ?_, fun h => ?_, fun v hv hf => ?_, fun v sz hv hf hsz => ?_⟩
  · simp [get_mean_consumption, has_meta, h]
  · simp [get_mean_consumption, has_meta, h]
  · have hvnull : v ≠ PyVal.str "null" := by
      intro h; subst h
      simp [pyFloat, pyFloatOfString] at hf
    have hm : has_meta "Household m2" meta = true := by
      simp [has_meta, hv, beq_eq_false_iff_ne.mpr hvnull]
    have hg : get_meta (some "Household m2") meta = .val v := by
      simp [get_meta, hv, (by decide : (("Household m2" == "") = false))]
    simp [get_mean_consumption, hm, hg, pyFloatResult, hf]
  · have hvnull : v ≠ PyVal.str "null" := by
      intro h; subst h
      simp [pyFloat, pyFloatOfString] at hf
    have hm : has_meta "Household m2" meta = true := by
      simp [has_meta, hv, beq_eq_false_iff_ne.mpr hvnull]
    have hg : get_meta (some "Household m2") meta = .val v := by
      simp [get_meta, hv, (by decide : (("Household m2" == "") = false))]
    simp [get_mean_consumption, hm, hg, pyFloatResult, hf, hsz]

/-- Witness for C4 at the spec's example: consumption `12.5` with size `50`
normalizes to `12.5 / 50 = 0.25`. -/
theorem get_mean_consumption_witness :
    get_mean_consumption (25 / 2) [("Household m2", PyVal.num 50)] =
      some ((25 / 2) / 50) ∧ (25 / 2 : ℚ) / 50 = 1 / 4 := by
  refine ⟨(get_mean_consumption_spec (25 / 2)
    [("Household m2", PyVal.num 50)]).2.2.2 (PyVal.num 50) 50 rfl rfl
    (by norm_num), by norm_num⟩

/-- String `==` agrees with decidable equality. -/
lemma beq_decide (a b : String) : (a == b) = decide (a = b) := by
  cases hk : a == b with
  | true => simp [eq_of_beq hk]
  | false => simp [beq_eq_false_iff_ne.mp hk]

/-- Membership in the effective sensor list (`sensors` with `"timestamp"`
appended when missing) is membership in `sensors ∪ \x7b"timestamp"\x7d`. -/
lemma effective_contains (l : List String) (k : String) :
    (if l.contains "timestamp" then l else l ++ ["timestamp"]).contains k
      = (l.contains k || k == "timestamp") := by
  by_cases h : l.contains "timestamp" = true
  · simp only [if_pos h]
    cases hk : (k == "timestamp") with
    | false => simp
    | true =>
      have hk2 : k = "timestamp" := eq_of_beq hk
      subst hk2
      simpa using h
  · simp only [Bool.not_eq_true] at h
    simp only [h, Bool.false_eq_true, if_false]
    simp [List.elem_eq_mem, beq_decide]

/-- `effective_contains`, restated in the `decide`-membership normal form
produced by `simp`. -/
lemma effective_mem_decide (l : List String) (k : String) :
    decide (k ∈ if "timestamp" ∈ l then l else l ++ ["timestamp"])
      = (decide (k ∈ l) || k == "timestamp") := by
  by_cases hts : "timestamp" ∈ l
  · by_cases hk : k = "timestamp" <;> simp [hts, hk]
  · by_cases hk : k = "timestamp" <;> simp [hts, hk, beq_decide]

/-- The keys of a record filtered by a key predicate are the record's keys
filtered by that predicate (a record-ordered intersection). -/
lemma map_fst_filter (p : String → Bool) (record : SensorRecord) :
    (record.filter (fun kv => p kv.1)).map Prod.fst
      = (record.map Prod.fst).filter p := by
  induction record with
  | nil => rfl
  | cons kv rest ih =>
    cases hp : p kv.1 <;> simp [List.filter, hp, ih]

/-- C6: with a non-empty sensor list `l`, `get_data` (the sensors branch)
maps each fetched record to its restriction to the keys in
`l ∪ \x7b"timestamp"\x7d`: record count and record order are preserved (it is a
`List.map`), each output record's keys are exactly the intersection of the
record's keys with `l ∪ \x7b"timestamp"\x7d`, and a record containing
`"timestamp"` keeps it even when `"timestamp" ∉ l`, so a record whose only
surviving key is `"timestamp"` is still emitted. -/
theorem get_data_filter_spec (env : Env) (date : Option ℕ) (l : List String)
    (db : Option String) (ds : Bool) (h : l ≠ []) :
    (get_data env date (some l) db false ds).1.energy_data =
      (env.fetch_data date db ds).map
        (fun record =>
          record.filter (fun kv => l.contains kv.1 || kv.1 == "timestamp")) ∧
    (get_data env date (some l) db false ds).1.energy_data.length =
      (env.fetch_data date db ds).length ∧
    (∀ record : SensorRecord,
      (record.filter (fun kv => l.contains kv.1 || kv.1 == "timestamp")).map
          Prod.fst =
        (record.map Prod.fst).filter
          (fun k => l.contains k || k == "timestamp")) ∧
    (∀ record : SensorRecord, "timestamp" ∈ record.map Prod.fst →
      "timestamp" ∈
        (record.filter (fun kv => l.contains kv.1 || kv.1 == "timestamp")).map
          Prod.fst) := by
  have hne : l.isEmpty = false := by
    cases l with
    | nil => exact absurd rfl h
    | cons a rest => rfl
  refine ⟨?_, ?_,
    fun record =>
      map_fst_filter (fun k => l.contains k || k == "timestamp") record,
    fun record hts => ?_⟩
  · simp [get_data, hne]
    intro a _
    exact List.filter_congr (fun kv _ => effective_mem_decide l kv.1)
  · simp [get_data, hne]
  · rcases List.mem_map.mp hts with ⟨kv, hkv, hfst⟩
    exact List.mem_map.mpr
      ⟨kv, List.mem_filter.mpr ⟨hkv, by simp [hfst]⟩, hfst⟩

/-- Witness for C6 at a concrete input: filtering on `["power"]` restricts
every record of the day to its `power`/`timestamp` columns. -/
theorem get_data_filter_witness :
    (get_data env0 (some 3) (some ["power"]) none false false).1.energy_data =
      (env0.fetch_data (some 3) none false).map
        (fun record =>
          record.filter
            (fun kv => (["power"] : List String).contains kv.1 ||
              kv.1 == "timestamp")) :=
  (get_data_filter_spec env0 (some 3) ["power"] none false (by decide)).1

/-- Scanning from the start for the first valid reading yields the head of
the valid subsequence. -/
lemma firstValid_eq_head (l : List PyVal) :
    firstValid l = (l.filterMap readingNum).head? := by
  induction l with
  | nil => rfl
  | cons v rest ih =>
    cases v <;> simp [firstValid, readingNum, List.filterMap_cons, ih]

/-- Scanning from the end for the last valid reading yields the last
element of the valid subsequence. -/
lemma lastValid_eq_getLast (l : List PyVal) :
    lastValid l = (l.filterMap readingNum).getLast? := by
  rw [lastValid, firstValid_eq_head, List.filterMap_reverse,
    List.head?_reverse]

/-- C2: the daily consumption estimate is `last_valid − first_valid`, the
first valid value being found by scanning from the start past
null/missing/non-numeric readings and the last by scanning from the end
(head and last of the valid subsequence); when no valid reading exists the
result is the "unavailable" sentinel (`estimate` is a total function, so no
exception is possible). -/
theorem estimate_first_last_valid (readings : List PyVal) :
    ((∀ v ∈ readings, isValidReading v = false) →
      estimate readings = .unavailable) ∧
    (∀ a b, (readings.filterMap readingNum).head? = some a →
      (readings.filterMap readingNum).getLast? = some b →
      estimate readings = .value (b - a)) := by
  constructor
  · intro hinv
    have hnil : readings.filterMap readingNum = [] := by
      refine List.filterMap_eq_nil_iff.mpr (fun v hv => ?_)
      have := hinv v hv
      cases v <;> simp_all [isValidReading, readingNum]
    rw [estimate, firstValid_eq_head, hnil]
    rfl
  · intro a b ha hb
    rw [estimate, firstValid_eq_head, lastValid_eq_getLast, ha, hb]

/-- Witness for C2 at the spec's end-to-end scenario: readings
`[null, 10, null, 25]` estimate to `25 − 10 = 15`. -/
theorem estimate_first_last_valid_witness :
    estimate [PyVal.null, PyVal.num 10, PyVal.null, PyVal.num 25] =
      ConsumptionValue.value (25 - 10) :=
  (estimate_first_last_valid
    [PyVal.null, PyVal.num 10, PyVal.null, PyVal.num 25]).2 10 25 rfl (by decide)

/-- On the non-`keep_last_only` path, `get_data` dates its result with the
requested date, whatever the sensors state. -/
lemma get_data_false_date (env : Env) (d : Option ℕ) (s : Option (List String))
    (db : Option String) (ds : Bool) :
    (get_data env d s db false ds).1.date = d := rfl

/-- On the non-`keep_last_only` path the caller's list after `get_data` is
`sensors_after` of its value before. -/
lemma get_data_false_snd (env : Env) (d : Option ℕ) (s : Option (List String))
    (db : Option String) (ds : Bool) :
    (get_data env d s db false ds).2 = sensors_after s := by
  cases s with
  | none => rfl
  | some l =>
    cases hl : l.isEmpty <;> simp [get_data, sensors_after, hl]

/-- Appending `"timestamp"` once is enough: a second `get_data` call finds
it present and leaves the list alone. -/
lemma sensors_after_idem (s : Option (List String)) :
    sensors_after (sensors_after s) = sensors_after s := by
  cases s with
  | none => rfl
  | some l =>
    cases hl : l.isEmpty with
    | true =>
      have hnil : l = [] := List.isEmpty_iff.mp hl
      subst hnil; rfl
    | false =>
      by_cases hc : "timestamp" ∈ l
      · have h1 : sensors_after (some l) = some l := by
          simp [sensors_after, hl, hc]
        rw [h1, h1]
      · have h1 : sensors_after (some l) = some (l ++ ["timestamp"]) := by
          simp [sensors_after, hl, hc]
        have h2 : sensors_after (some (l ++ ["timestamp"])) =
            some (l ++ ["timestamp"]) := by
          simp [sensors_after]
        rw [h1, h2]

/-- Invariant of the `while now <= to_dt` loop: it emits one `EnergyData`
per day of `[now, toD]` in chronological order, the `i`-th dated `now + i`,
and leaves the sensors list at `sensors_after` of its initial value (when
at least one iteration ran). -/
lemma range_loop_spec (env : Env) (db : Option String) (ds : Bool) :
    ∀ (k now toD : ℕ) (s : Option (List String)), toD + 1 - now = k →
      (range_loop env db ds now toD s).1.length = toD + 1 - now ∧
      (∀ i (hi : i < (range_loop env db ds now toD s).1.length),
        ((range_loop env db ds now toD s).1[i]).date = some (now + i)) ∧
      (range_loop env db ds now toD s).2 =
        (if now ≤ toD then sensors_after s else s) := by
  intro k
  induction k with
  | zero =>
    intro now toD s hk
    have hgt : ¬ now ≤ toD := by omega
    rw [range_loop, dif_neg hgt]
    refine ⟨by simp; omega, ?_, by simp [hgt]⟩
    intro i hi
    simp at hi
  | succ k ih =>
    intro now toD s hk
    have hle : now ≤ toD := by omega
    have hk' : toD + 1 - (now + 1) = k := by omega
    obtain ⟨ih1, ih2, ih3⟩ :=
      ih (now + 1) toD (get_data env (some now) s db false ds).2 hk'
    rw [range_loop, dif_pos hle]
    dsimp only
    refine ⟨?_, ?_, ?_⟩
    · simp only [List.length_cons, ih1]
      omega
    · intro i hi
      cases i with
      | zero =>
        simp only [List.getElem_cons_zero]
        rw [get_data_false_date]
        simp
      | succ j =>
        simp only [List.getElem_cons_succ]
        have hj : j < (range_loop env db ds (now + 1) toD
            (get_data env (some now) s db false ds).2).1.length := by
          simp only [List.length_cons] at hi
          omega
        rw [ih2 j hj]
        congr 1
        omega
    · rw [ih3, get_data_false_snd]
      by_cases h2 : now + 1 ≤ toD
      · rw [if_pos h2, if_pos hle, sensors_after_idem]
      · rw [if_neg h2, if_pos hle]

/-- C3: for `from_date ≤ to_date`, `get_range_data` echoes the requested
bounds and its `range_data` holds exactly one `EnergyData` per calendar day
of the closed interval, in chronological order, the `i`-th entry dated
`from_date + i` (so a single-day range yields one entry and a range of
`d1` to `d1 + 3` yields four entries dated `d1, d1+1, d1+2, d1+3`). -/
theorem get_range_data_days (env : Env) (d1 d2 : ℕ)
    (s : Option (List String)) (db : Option String) (ds : Bool)
    (h : d1 ≤ d2) :
    (get_range_data env d1 d2 s db ds).1.from_date = d1 ∧
    (get_range_data env d1 d2 s db ds).1.to_date = d2 ∧
    (get_range_data env d1 d2 s db ds).1.range_data.length = d2 - d1 + 1 ∧
    ∀ i (hi : i < (get_range_data env d1 d2 s db ds).1.range_data.length),
      ((get_range_data env d1 d2 s db ds).1.range_data[i]).date =
        some (d1 + i) := by
  obtain ⟨h1, h2, _⟩ := range_loop_spec env db ds (d2 + 1 - d1) d1 d2 s rfl
  refine ⟨rfl, rfl, ?_, ?_⟩
  · show (range_loop env db ds d1 d2 s).1.length = d2 - d1 + 1
    rw [h1]; omega
  · intro i hi
    exact h2 i hi

/-- Witness for C3 at a concrete input: the range `10..13` yields
`13 - 10 + 1 = 4` entries. -/
theorem get_range_data_days_witness :
    (get_range_data env0 10 13 none none false).1.range_data.length =
      13 - 10 + 1 :=
  (get_range_data_days env0 10 13 none none false (by norm_num)).2.2.1

/-- C1 counterexample: at the concrete inverted range `from = 5`, `to = 3`,
`get_range_data` does NOT reject the request: it returns a `RangeResult`
with zero entries in `range_data` (the loop condition `now <= to_dt` is
false at once and no `InvalidRangeError` exists anywhere in the code). -/
theorem get_range_data_inverted_counterexample :
    (get_range_data env0 5 3 none none false).1.range_data = [] ∧
    (get_range_data env0 5 3 none none false).1 = ⟨5, 3, []⟩ := by
  have hloop : range_loop env0 none false 5 3 none = ([], none) := by
    rw [range_loop]
    norm_num
  constructor
  · show (range_loop env0 none false 5 3 none).1 = []
    rw [hloop]
  · show (⟨5, 3, (range_loop env0 none false 5 3 none).1⟩ : RangeResult) =
      ⟨5, 3, []⟩
    rw [hloop]

/-- C1 (amended): for parseable dates with `to_date < from_date`,
`get_range_data` returns a `RangeResult` with the requested bounds and an
empty `range_data` (zero entries), without touching the sensors list; no
`InvalidRangeError` is raised — the source has no such check, and the
spec's own design notes call the explicit rejection a deliberate
strengthening over the source. -/
theorem get_range_data_inverted_empty (env : Env) (d1 d2 : ℕ)
    (s : Option (List String)) (db : Option String) (ds : Bool)
    (h : d2 < d1) :
    (get_range_data env d1 d2 s db ds).1 = ⟨d1, d2, []⟩ ∧
    (get_range_data env d1 d2 s db ds).2 = s := by
  have hgt : ¬ d1 ≤ d2 := by omega
  have hloop : range_loop env db ds d1 d2 s = ([], s) := by
    rw [range_loop, dif_neg hgt]
  constructor
  · show (⟨d1, d2, (range_loop env db ds d1 d2 s).1⟩ : RangeResult) =
      ⟨d1, d2, []⟩
    rw [hloop]
  · show (range_loop env db ds d1 d2 s).2 = s
    rw [hloop]

/-- Witness for the amended C1 at a concrete input: `from = 7`, `to = 4`
yields the empty range result. -/
theorem get_range_data_inverted_empty_witness :
    (get_range_data env0 7 4 (some ["power"]) none false).1 = ⟨7, 4, []⟩ :=
  (get_range_data_inverted_empty env0 7 4 (some ["power"]) none false
    (by norm_num)).1

/-- C10: on the default `keep_last_only = False` path, `get_data` appends
`"timestamp"` in place to a non-empty caller list lacking it; a `None`,
empty, or already-`"timestamp"`-containing list is left unchanged; and in
`get_range_data` the same list object is threaded through the per-day loop,
so after a whole (non-empty) range the list is exactly what a single
`get_data` call leaves behind — the mutation happens at most once. -/
theorem get_data_sensors_mutation_spec (env : Env) (date : Option ℕ)
    (db : Option String) (ds : Bool) :
    (∀ l : List String, l ≠ [] → "timestamp" ∉ l →
      (get_data env date (some l) db false ds).2 =
        some (l ++ ["timestamp"])) ∧
    (get_data env date none db false ds).2 = none ∧
    (get_data env date (some []) db false ds).2 = some [] ∧
    (∀ l : List String, "timestamp" ∈ l →
      (get_data env date (some l) db false ds).2 = some l) ∧
    (∀ (d1 d2 : ℕ) (s : Option (List String)), d1 ≤ d2 →
      (get_range_data env d1 d2 s db ds).2 =
        (get_data env date s db false ds).2) := by
  refine ⟨?_, rfl, rfl, ?_, ?_⟩
  · intro l hne hts
    rw [get_data_false_snd]
    have hl : l.isEmpty = false := by
      cases l with
      | nil => exact absurd rfl hne
      | cons a rest => rfl
    simp [sensors_after, hl, hts]
  · intro l hts
    rw [get_data_false_snd]
    cases hl : l.isEmpty with
    | true =>
      have hnil : l = [] := List.isEmpty_iff.mp hl
      subst hnil
      simp at hts
    | false =>
      simp [sensors_after, hl, hts]
  · intro d1 d2 s h
    obtain ⟨_, _, h3⟩ := range_loop_spec env db ds (d2 + 1 - d1) d1 d2 s rfl
    show (range_loop env db ds d1 d2 s).2 = _
    rw [h3, if_pos h, get_data_false_snd]

/-- Witness for C10 at a concrete input: the caller's `["power"]` list
comes back as `["power", "timestamp"]`. -/
theorem get_data_sensors_mutation_witness :
    (get_data env0 (some 1) (some ["power"]) none false false).2 =
      some (["power"] ++ ["timestamp"]) :=
  (get_data_sensors_mutation_spec env0 (some 1) none false).1 ["power"]
    (by decide) (by decide)
